import Mathlib

/- Verification development for the task-management core of this repository:
the natural-language input parser and task utilities (src/unnamed/part_001,
the taskUtils module) and the task-list state reducer with its filtered view
(src/app/contexts/TaskContext.tsx).

Modelling conventions:
* JavaScript Date values are timestamps: Int, milliseconds since the epoch.
  Comparison of Date objects compares these timestamps; date-fns isToday
  compares calendar days, modelled as equality of the floor-division of the
  timestamp by the number of milliseconds in a day.
* The external chrono-node date extraction invoked by parseTaskInput is not
  code of this repository; it is abstracted as an explicit argument
  chronoRes : Option (String, Int), holding the matched text and resulting
  date of the first parse result when a date phrase is found, none otherwise.
* JavaScript strict equality on strings and enum-like string literals is
  modelled with decidable equality; truthiness of optional strings
  (null / empty string are falsy) is modelled explicitly at each use site.
-/

set_option maxRecDepth 8192

namespace Todo

/-- Task status, src/app/contexts/TaskContext.tsx: 'open' | 'in-progress' | 'done'. -/
inductive Status where
  | open_
  | inProgress
  | done
deriving DecidableEq

/-- Task priority, src/app/types/index.ts: 'low' | 'medium' | 'high'. -/
inductive Priority where
  | low
  | medium
  | high
deriving DecidableEq

/-- Recurrence literals recognized by the parser, src/unnamed/part_001 line 41:
daily | weekly | monthly | yearly. -/
inductive RepeatRule where
  | daily
  | weekly
  | monthly
  | yearly
deriving DecidableEq

/-- The Task entity (src/app/types/index.ts together with the fields the
TaskContext code uses: status and notes). Dates are Int timestamps; the
field named repeat in the source is repeatOpt here because repeat is a
reserved word in Lean. -/
structure Task where
  id : String
  title : String
  description : Option String := none
  notes : String := ""
  completed : Bool
  status : Status
  dueDate : Option Int := none
  category : String
  priority : Priority
  repeatOpt : Option RepeatRule := none
  tags : List String := []
  createdAt : Int := 0
  updatedAt : Int := 0
deriving DecidableEq

/-- Milliseconds per day, for the calendar-day arithmetic of date-fns isToday. -/
def msPerDay : Int := 86400000

/-- The calendar day of a timestamp (floor division by msPerDay). -/
def dayOf (t : Int) : Int := t / msPerDay

/-- date-fns isToday(d) relative to the current instant now: d falls on the
same calendar day as now. -/
def isTodayB (d now : Int) : Bool := decide (dayOf d = dayOf now)

/-- JavaScript s.toLowerCase(), as a character map over the string's data. -/
def strLower (s : String) : String := String.mk (s.data.map Char.toLower)

/-- Leading and trailing whitespace removed from a character list. -/
def trimChars (cs : List Char) : List Char :=
  ((cs.dropWhile Char.isWhitespace).reverse.dropWhile Char.isWhitespace).reverse

/-- JavaScript s.trim(). -/
def strTrim (s : String) : String := String.mk (trimChars s.data)

/-- JavaScript needle containment scan: needle.isPrefixOf of some suffix. -/
def charsContain (needle : List Char) : List Char → Bool
  | [] => needle.isEmpty
  | c :: rest => needle.isPrefixOf (c :: rest) || charsContain needle rest

/-- JavaScript hay.includes(needle): substring containment. -/
def strIncludes (hay needle : String) : Bool := charsContain needle.data hay.data

/-- categoryKeywords, src/unnamed/part_001 lines 16-23, in the object's
insertion order (the iteration order of Object.entries). -/
def categoryKeywords : List (String × List String) :=
  [("shopping", ["buy", "purchase", "shop", "grocery", "milk", "bread", "food",
                 "clothes", "shirt", "pants"]),
   ("work", ["meeting", "call", "email", "report", "presentation", "deadline",
             "project", "client", "boss"]),
   ("health", ["exercise", "workout", "gym", "doctor", "appointment", "medicine",
               "vitamin", "run", "walk"]),
   ("home", ["clean", "laundry", "dishes", "cook", "repair", "maintenance",
             "organize", "declutter"]),
   ("finance", ["bill", "payment", "budget", "expense", "tax", "investment",
                "save", "money", "bank"]),
   ("personal", ["call", "visit", "birthday", "anniversary", "party", "dinner",
                 "lunch", "coffee"])]

/-- Auto-categorization, src/unnamed/part_001 lines 46-53: default 'personal',
first catalog entry with a keyword occurring in the lowercased input wins. -/
def categoryOf (lowerInput : String) : String :=
  match categoryKeywords.find? (fun p => p.2.any (fun keyword => strIncludes lowerInput keyword)) with
  | some p => p.1
  | none => "personal"

/-- Priority keywords, src/unnamed/part_001 lines 55-61: urgency keywords give
high, low-priority phrases give low, otherwise medium. -/
def priorityOf (lowerInput : String) : Priority :=
  if strIncludes lowerInput "urgent" || strIncludes lowerInput "asap" ||
      strIncludes lowerInput "important" then
    Priority.high
  else if strIncludes lowerInput "low priority" || strIncludes lowerInput "sometime" then
    Priority.low
  else
    Priority.medium

/-- A JavaScript regex word character: [A-Za-z0-9_]. -/
def isWordChar (c : Char) : Bool := c.isAlphanum || c = '_'

/-- Scanner for the global regex matching a hash sign followed by word
characters: at a hash sign, the maximal nonempty run of word characters after
it is one match; scanning resumes past it (non-overlapping, left to right).
The fuel argument, called with the list's length, only makes the recursion
structural: a step consumes at least one character, so fuel never runs out. -/
def extractTagsGo : Nat → List Char → List String
  | _, [] => []
  | 0, _ => []
  | fuel + 1, c :: rest =>
    if c = '#' then
      let w := rest.takeWhile isWordChar
      if w.isEmpty then extractTagsGo fuel rest
      else String.mk w :: extractTagsGo fuel (rest.dropWhile isWordChar)
    else extractTagsGo fuel rest

/-- The tag tokens of the input, src/unnamed/part_001 line 64, each with the
hash sign sliced off. -/
def extractTags (cs : List Char) : List String := extractTagsGo cs.length cs

/-- Removal scanner: the same scan as extractTagsGo, dropping each matched tag
token and keeping every other character. -/
def removeTagsGo : Nat → List Char → List Char
  | _, [] => []
  | 0, rest => rest
  | fuel + 1, c :: rest =>
    if c = '#' then
      let w := rest.takeWhile isWordChar
      if w.isEmpty then c :: removeTagsGo fuel rest
      else removeTagsGo fuel (rest.dropWhile isWordChar)
    else c :: removeTagsGo fuel rest

/-- Every tag token removed from the title, src/unnamed/part_001 line 74. -/
def removeTags (cs : List Char) : List Char := removeTagsGo cs.length cs

/-- JavaScript s.replace(pat, empty string) for a plain string pattern:
the first occurrence of pat is removed. -/
def removeFirst (pat : List Char) : List Char → List Char
  | [] => []
  | c :: rest =>
    if pat.isPrefixOf (c :: rest) then (c :: rest).drop pat.length
    else c :: removeFirst pat rest

/-- removeFirst on strings. -/
def removeFirstStr (s pat : String) : String := String.mk (removeFirst pat.data s.data)

/-- The four recurrence alternatives of the repeat regex in alternation order. -/
def repeatAlternatives : List (String × RepeatRule) :=
  [("daily", RepeatRule.daily), ("weekly", RepeatRule.weekly),
   ("monthly", RepeatRule.monthly), ("yearly", RepeatRule.yearly)]

/-- The first match of the case-insensitive regex repeat:(daily|weekly|monthly|yearly)
(src/unnamed/part_001 line 41): scan positions left to right; at each position
compare the lowercased text against repeat: followed by an alternative; the
matched text keeps the original casing. -/
def findRepeatAux : List Char → Option (String × RepeatRule)
  | [] => none
  | c :: rest =>
    match repeatAlternatives.find?
        (fun alt => ("repeat:" ++ alt.1).data.isPrefixOf ((c :: rest).map Char.toLower)) with
    | some alt => some (String.mk ((c :: rest).take ("repeat:".length + alt.1.length)), alt.2)
    | none => findRepeatAux rest

/-- findRepeatAux on the input string. -/
def findRepeatMatch (input : String) : Option (String × RepeatRule) :=
  findRepeatAux input.data

/-- The structured draft returned by parseTaskInput, src/unnamed/part_001
lines 25-32. -/
structure ParsedInput where
  title : String
  category : String
  dueDate : Option Int
  priority : Priority
  tags : List String
  repeatOpt : Option RepeatRule
deriving DecidableEq

/-- parseTaskInput, src/unnamed/part_001 lines 25-84. The chrono-node call
parse(input) is abstracted as the argument chronoRes (matched text and date
of the first result, or none): dueDate is its date when present; the title
has the matched date text (first occurrence), the repeat token and every tag
token removed, trimmed at each step as in the source. -/
def parseTaskInput (chronoRes : Option (String × Int)) (input : String) : ParsedInput :=
  let lowerInput := strLower input
  let dueDate := chronoRes.map Prod.snd
  let repeatMatch := findRepeatMatch input
  let category := categoryOf lowerInput
  let priority := priorityOf lowerInput
  let tags := extractTags input.data
  let title1 :=
    match chronoRes with
    | some m => strTrim (removeFirstStr input m.1)
    | none => input
  let title2 :=
    match repeatMatch with
    | some m => strTrim (removeFirstStr title1 m.1)
    | none => title1
  let title := strTrim (String.mk (removeTags title2.data))
  { title := title, category := category, dueDate := dueDate,
    priority := priority, tags := tags, repeatOpt := repeatMatch.map Prod.snd }

/-- createTask, src/unnamed/part_001 lines 86-105: parses the input, and when
the parser found no date the due date is set to the current instant (the
source comment reads: If no date is provided, set to today). The source omits
the id (assigned by the persistence layer); it is the empty string here.
An explicitly supplied priority overrides the parsed one. -/
def createTask (chronoRes : Option (String × Int)) (now : Int) (input : String)
    (priority : Option Priority) : Task :=
  let parsed := parseTaskInput chronoRes input
  { id := "", title := parsed.title, description := none, notes := "",
    completed := false, status := Status.open_,
    dueDate := some (parsed.dueDate.getD now),
    category := parsed.category,
    priority := priority.getD parsed.priority,
    repeatOpt := parsed.repeatOpt, tags := parsed.tags,
    createdAt := now, updatedAt := now }

/-- Modelled from the spec: the natural-language date extraction is the
external chrono-node library, which is not code of this repository. The
source calls parse(input) with no reference date (src/unnamed/part_001
line 36), so the library takes the wall-clock current time as its reference
for relative phrases. This model covers the single relative phrase
"tomorrow": when the lowercased input contains it, the extraction reports
the matched text and the calendar day after the reference instant;
otherwise it finds no date. -/
def chronoModel (input : String) (wallClock : Int) : Option (String × Int) :=
  if strIncludes (strLower input) "tomorrow" then
    some ("tomorrow", (dayOf wallClock + 1) * msPerDay)
  else none

/-- parseTaskInput as actually invoked, with the internal wall-clock reading
of the date library made explicit: the source supplies no reference time, so
the extraction depends on the instant the parser happens to run. -/
def parseAtClock (wallClock : Int) (input : String) : ParsedInput :=
  parseTaskInput (chronoModel input wallClock) input

/-- The reducer actions on the task list that the claims concern
(src/app/contexts/TaskContext.tsx lines 27-40); the payloads are as in the
source. The creation, load and pure-UI actions are not modelled. -/
inductive TaskAction where
  | updateTask (payload : Task)
  | updateTaskStatus (id : String) (status : Status)
  | deleteTask (id : String)
  | toggleTask (id : String)
  | toggleImportant (id : String)

/-- The priority rewrite of TOGGLE_IMPORTANT and of the toggleImportant
command (src/app/contexts/TaskContext.tsx lines 147 and 350):
high becomes medium, anything else becomes high. -/
def togglePriority (p : Priority) : Priority :=
  if p = Priority.high then Priority.medium else Priority.high

/-- The task-list component of taskReducer
(src/app/contexts/TaskContext.tsx lines 87-155): the updatedTasks each case
computes. The reducer also recomputes derived statistics from this list and
leaves the remaining state fields unchanged; no claim concerns those. The
current instant, read by new Date() in the source, is the argument now. -/
def reduceTasks (now : Int) (action : TaskAction) (tasks : List Task) : List Task :=
  match action with
  | .updateTask payload =>
    tasks.map (fun t => if t.id = payload.id then { payload with updatedAt := now } else t)
  | .updateTaskStatus id status =>
    tasks.map (fun t =>
      if t.id = id then
        { t with status := status, completed := decide (status = Status.done), updatedAt := now }
      else t)
  | .deleteTask id => tasks.filter (fun t => decide (t.id ≠ id))
  | .toggleTask id =>
    tasks.map (fun t =>
      if t.id = id then
        { t with completed := !t.completed,
                 status := if !t.completed && decide (t.status = Status.done) then Status.open_
                           else t.status,
                 updatedAt := now }
      else t)
  | .toggleImportant id =>
    tasks.map (fun t =>
      if t.id = id then { t with priority := togglePriority t.priority, updatedAt := now } else t)

/-- The persisted partial update of the toggleTask command
(src/app/contexts/TaskContext.tsx lines 333-337), merged into the task it
addresses: completed is flipped, status becomes done when the task was not
completed and open when it was, updatedAt is refreshed. -/
def toggleTaskUpdate (now : Int) (t : Task) : Task :=
  { t with completed := !t.completed,
           status := if !t.completed then Status.done else Status.open_,
           updatedAt := now }

/-- The slice of the context state the filtered view reads
(src/app/contexts/TaskContext.tsx lines 17-25). -/
structure TaskState where
  tasks : List Task
  viewMode : String
  searchTerm : String
  selectedCategory : Option String

/-- The view-mode switch of filterTasks, src/unnamed/part_001 lines 150-164:
today keeps tasks due on the current calendar day or with a due date before
the current instant; upcoming keeps due dates after the current instant;
important keeps high priority; any other mode passes every task through. -/
def filterByView (now : Int) (viewMode : String) (tasks : List Task) : List Task :=
  if viewMode = "today" then
    tasks.filter (fun t =>
      match t.dueDate with
      | some d => isTodayB d now || decide (d < now)
      | none => false)
  else if viewMode = "upcoming" then
    tasks.filter (fun t =>
      match t.dueDate with
      | some d => decide (now < d)
      | none => false)
  else if viewMode = "important" then
    tasks.filter (fun t => decide (t.priority = Priority.high))
  else tasks

/-- The search-term match of filterTasks, src/unnamed/part_001 lines 167-174:
case-insensitive substring match of the (already lowercased) term against
title, description when present, category, or any tag. -/
def searchPred (term : String) (t : Task) : Bool :=
  strIncludes (strLower t.title) term ||
  (match t.description with
   | some d => strIncludes (strLower d) term
   | none => false) ||
  strIncludes (strLower t.category) term ||
  t.tags.any (fun tag => strIncludes (strLower tag) term)

/-- filterTasks before its final sort, src/unnamed/part_001 lines 147-175:
the view-mode filter, then the search filter when the term is non-empty
(JavaScript truthiness of the searchTerm string). -/
def filterTasksPre (now : Int) (tasks : List Task) (viewMode searchTerm : String) : List Task :=
  let filtered := filterByView now viewMode tasks
  if searchTerm ≠ "" then filtered.filter (searchPred (strLower searchTerm)) else filtered

/-- priorityOrder, src/unnamed/part_001 line 179: high 3, medium 2, low 1. -/
def priorityOrder : Priority → Int
  | .high => 3
  | .medium => 2
  | .low => 1

/-- The sort comparator of filterTasks, src/unnamed/part_001 lines 177-195:
descending priority first; among tasks that both have due dates, ascending
due date; a task with a due date before one without; otherwise descending
creation time. Negative means the first argument sorts earlier. -/
def cmpTasks (a b : Task) : Int :=
  if priorityOrder a.priority ≠ priorityOrder b.priority then
    priorityOrder b.priority - priorityOrder a.priority
  else
    match a.dueDate, b.dueDate with
    | some ta, some tb => ta - tb
    | some _, none => -1
    | none, some _ => 1
    | none, none => b.createdAt - a.createdAt

/- The source binds the two priority ranks to local constants before
comparing; they are inlined above, which changes nothing observable. -/

/-- The comparator as the order a stable sort uses: a stays before b exactly
when the comparator is non-positive, which reproduces the order of
JavaScript's stable Array.prototype.sort. -/
def taskLe (a b : Task) : Bool := cmpTasks a b ≤ 0

/-- filterTasks, src/unnamed/part_001 lines 147-196: the filter stages
followed by the stable sort under the comparator. -/
def filterTasks (now : Int) (tasks : List Task) (viewMode searchTerm : String) : List Task :=
  (filterTasksPre now tasks viewMode searchTerm).mergeSort taskLe

/-- getFilteredTasks, src/app/contexts/TaskContext.tsx lines 248-261: when
selectedCategory is truthy (non-null and non-empty), only the category
filter runs; otherwise filterTasks runs with the view mode and search term. -/
def getFilteredTasks (now : Int) (s : TaskState) : List Task :=
  match s.selectedCategory with
  | some c =>
    if c = "" then filterTasks now s.tasks s.viewMode s.searchTerm
    else s.tasks.filter (fun t => decide (t.category = c))
  | none => filterTasks now s.tasks s.viewMode s.searchTerm

/-- Invariant I1 of the spec at one task: completed is the cached mirror of
the status being done. -/
def invariantI1 (t : Task) : Bool := t.completed == decide (t.status = Status.done)

/-- The spec's priority scale: low below medium below high. -/
def specRank : Priority → Nat
  | .low => 0
  | .medium => 1
  | .high => 2

/-- The due-date and creation-date part of the spec's sort order: soonest due
date first, tasks without a due date last, newest creation first as the
final tie-break. -/
def specDueLe : Option Int → Option Int → Int → Int → Prop
  | some ta, some tb, _, _ => ta ≤ tb
  | some _, none, _, _ => True
  | none, some _, _, _ => False
  | none, none, ca, cb => cb ≤ ca

/-- The sort order stated by the spec, written from its words: priority
descending, then the due-date order, then the creation-date tie-break. -/
def specLe (a b : Task) : Prop :=
  specRank b.priority < specRank a.priority ∨
    (a.priority = b.priority ∧ specDueLe a.dueDate b.dueDate a.createdAt b.createdAt)

/-- Frame relation for a per-task operation: the list keeps its length and
every position whose task has a different id keeps its task unchanged, so
untouched tasks keep their fields and their relative order. -/
def frameOK (id : String) (l l2 : List Task) : Prop :=
  l2.length = l.length ∧ ∀ (i : Nat) (t : Task), l[i]? = some t → t.id ≠ id → l2[i]? = some t

/-- A not-completed open task used in concrete evaluations. -/
def openTask : Task :=
  { id := "t1", title := "write report", description := none, notes := "",
    completed := false, status := Status.open_, dueDate := none,
    category := "work", priority := Priority.medium, repeatOpt := none,
    tags := [], createdAt := 0, updatedAt := 0 }

/-- A completed task in done status, the invariant-satisfying completed
shape, used in concrete evaluations. -/
def doneTask : Task :=
  { openTask with id := "t2", completed := true, status := Status.done }

/-- A not-completed task whose due date lies three calendar days before the
given instant (Scenario E of the spec). -/
def overdueThreeDays (now : Int) : Task :=
  { id := "od", title := "call the doctor", description := none, notes := "",
    completed := false, status := Status.open_,
    dueDate := some (now - 3 * msPerDay),
    category := "health", priority := Priority.medium, repeatOpt := none,
    tags := [], createdAt := 0, updatedAt := 0 }

/-- A finance-category task used by the category-filter witness. -/
def financeTask : Task :=
  { id := "w1", title := "pay the electricity bill", description := none,
    notes := "", completed := false, status := Status.open_, dueDate := none,
    category := "finance", priority := Priority.medium, repeatOpt := none,
    tags := [], createdAt := 0, updatedAt := 0 }

/-- The tags output of the parser depends only on the input text. -/
lemma parseTaskInput_tags (chronoRes : Option (String × Int)) (input : String) :
    (parseTaskInput chronoRes input).tags = extractTags input.data := rfl

/-- The category output of the parser depends only on the lowercased input. -/
lemma parseTaskInput_category (chronoRes : Option (String × Int)) (input : String) :
    (parseTaskInput chronoRes input).category = categoryOf (strLower input) := rfl

/-- The priority output of the parser depends only on the lowercased input. -/
lemma parseTaskInput_priority (chronoRes : Option (String × Int)) (input : String) :
    (parseTaskInput chronoRes input).priority = priorityOf (strLower input) := rfl

/-- The repeat output of the parser depends only on the input text. -/
lemma parseTaskInput_repeatOpt (chronoRes : Option (String × Int)) (input : String) :
    (parseTaskInput chronoRes input).repeatOpt = (findRepeatMatch input).map Prod.snd := rfl

/-- The dueDate output of the parser is the date of the extraction result. -/
lemma parseTaskInput_dueDate (chronoRes : Option (String × Int)) (input : String) :
    (parseTaskInput chronoRes input).dueDate = chronoRes.map Prod.snd := rfl

/-- The comparator's priority ranks order priorities as the spec's scale does. -/
lemma priorityOrder_lt_iff (p q : Priority) :
    priorityOrder p < priorityOrder q ↔ specRank p < specRank q := by
  cases p <;> cases q <;> decide

/-- The comparator's priority ranks are injective. -/
lemma priorityOrder_eq_iff (p q : Priority) :
    priorityOrder p = priorityOrder q ↔ p = q := by
  cases p <;> cases q <;> decide

/-- The comparator order coincides with the sort order the spec states. -/
lemma taskLe_iff_specLe (a b : Task) : taskLe a b = true ↔ specLe a b := by
  simp only [taskLe, decide_eq_true_eq]
  unfold cmpTasks specLe
  by_cases hpq : priorityOrder a.priority = priorityOrder b.priority
  · have hp : a.priority = b.priority := (priorityOrder_eq_iff _ _).mp hpq
    rw [if_neg (by simpa using hpq)]
    have hr : ¬ specRank b.priority < specRank a.priority := by
      rw [hp]; exact lt_irrefl _
    cases hda : a.dueDate <;> cases hdb : b.dueDate <;>
      simp [specDueLe, hp, hr, sub_nonpos]
  · rw [if_pos hpq]
    have h2 : ¬ a.priority = b.priority := fun h => hpq (by rw [h])
    constructor
    · intro hle
      exact Or.inl ((priorityOrder_lt_iff _ _).mp (by omega))
    · rintro (hlt | ⟨heq, _⟩)
      · have := (priorityOrder_lt_iff _ _).mpr hlt
        omega
      · exact absurd heq h2

/-- The comparator order is total. -/
lemma taskLe_total (a b : Task) : (taskLe a b || taskLe b a) = true := by
  simp only [taskLe, Bool.or_eq_true, decide_eq_true_eq]
  unfold cmpTasks
  by_cases hpq : priorityOrder a.priority = priorityOrder b.priority
  · rw [if_neg (by simpa using hpq), if_neg (by simpa using hpq.symm)]
    cases hda : a.dueDate <;> cases hdb : b.dueDate <;> simp <;> omega
  · rw [if_pos hpq, if_pos (fun h => hpq h.symm)]
    omega

/-- The due-date part of the spec's sort order is transitive. -/
lemma specDueLe_trans (da db dc : Option Int) (ca cb cc : Int) :
    specDueLe da db ca cb → specDueLe db dc cb cc → specDueLe da dc ca cc := by
  intro h1 h2
  cases da <;> cases db <;> cases dc <;> simp_all [specDueLe] <;> omega

/-- The spec's sort order is transitive. -/
lemma specLe_trans (a b c : Task) : specLe a b → specLe b c → specLe a c := by
  rintro (h1 | ⟨e1, d1⟩) (h2 | ⟨e2, d2⟩)
  · exact Or.inl (h2.trans h1)
  · exact Or.inl (by rw [← e2]; exact h1)
  · exact Or.inl (by rw [e1]; exact h2)
  · exact Or.inr ⟨e1.trans e2, specDueLe_trans _ _ _ _ _ _ d1 d2⟩

/-- The comparator order is transitive. -/
lemma taskLe_trans (a b c : Task) :
    taskLe a b = true → taskLe b c = true → taskLe a c = true := fun h1 h2 =>
  (taskLe_iff_specLe _ _).mpr
    (specLe_trans _ _ _ ((taskLe_iff_specLe _ _).mp h1) ((taskLe_iff_specLe _ _).mp h2))

/-- A map that rewrites only the task with the given id frames every other
position. -/
lemma frame_map (f : Task → Task) (id : String) (l : List Task) :
    frameOK id l (l.map (fun t => if t.id = id then f t else t)) := by
  refine ⟨List.length_map _ _, fun i t ht hne => ?_⟩
  rw [List.getElem?_map, ht]
  simp [hne]

/-- Membership in the today view (no category, empty search): due on the
current calendar day or due strictly before the current instant. -/
lemma mem_filterTasks_today (now : Int) (tasks : List Task) (t : Task) :
    t ∈ filterTasks now tasks "today" "" ↔
      t ∈ tasks ∧ ∃ d, t.dueDate = some d ∧ (dayOf d = dayOf now ∨ d < now) := by
  rw [filterTasks, List.mem_mergeSort]
  have hpre : filterTasksPre now tasks "today" "" =
      tasks.filter (fun t =>
        match t.dueDate with
        | some d => isTodayB d now || decide (d < now)
        | none => false) := by
    simp [filterTasksPre, filterByView]
  rw [hpre, List.mem_filter]
  cases hd : t.dueDate with
  | none => simp [hd]
  | some d => simp [hd, isTodayB]

/-- C1 (code_bug evaluation): the reducer's TOGGLE_TASK case breaks the
status/completed invariant. Starting from a list satisfying the invariant
(one open, not-completed task), one TOGGLE_TASK leaves a task with
completed true and status still open, so the invariant the claim states for
every updateStatus/toggleCompleted sequence fails after the very first
toggle. The guard in the source tests the task being not completed, the
opposite of the uncompleting case its own comment describes, and the case
never writes status done on completion. -/
theorem c1_toggle_breaks_status_completed_invariant :
    ([openTask].all invariantI1 = true) ∧
    ((reduceTasks 99 (TaskAction.toggleTask "t1") [openTask]).all invariantI1 = false) ∧
    ((reduceTasks 99 (TaskAction.toggleTask "t1") [openTask]).map
        (fun t => (t.completed, t.status)) = [(true, Status.open_)]) := by
  decide

/-- C2 (code_bug evaluation): the reducer's TOGGLE_TASK case diverges from
the claimed toggle semantics, while the toggleTask command's persisted
update satisfies it. Un-completing a done task through the reducer leaves
status done (the claim says it reverts to open), and completing an open task
leaves status open (the claim says completing always sets done). The
command-path update toggleTaskUpdate behaves exactly as claimed on both
shapes. -/
theorem c2_toggle_status_reducer_divergence :
    ((reduceTasks 7 (TaskAction.toggleTask "t2") [doneTask]).map
        (fun t => (t.completed, t.status)) = [(false, Status.done)]) ∧
    ((reduceTasks 7 (TaskAction.toggleTask "t1") [openTask]).map
        (fun t => (t.completed, t.status)) = [(true, Status.open_)]) ∧
    (toggleTaskUpdate 7 doneTask).completed = false ∧
    (toggleTaskUpdate 7 doneTask).status = Status.open_ ∧
    (toggleTaskUpdate 7 openTask).completed = true ∧
    (toggleTaskUpdate 7 openTask).status = Status.done := by
  decide

/-- C3 (counterexample): on the Scenario B input the parser returns category
work, not personal: the keyword call sits in the work catalog entry, which
precedes personal in the fixed iteration order, so first-match-wins picks
work. -/
theorem c3_scenario_b_category_is_work :
    (parseTaskInput (some ("this weekend", 1718000000000))
        "Call mom this weekend #family urgent").category = "work" ∧
    ¬ (parseTaskInput (some ("this weekend", 1718000000000))
        "Call mom this weekend #family urgent").category = "personal" := by
  decide

/-- C3 (amended): for the Scenario B input, whatever the date extraction
returns, the tags are family, the priority is high (the urgency keyword
wins), and the category is work: the keyword call matches the work entry
first in the fixed catalog iteration order with first-match-wins. -/
theorem c3_scenario_b_amended (chronoRes : Option (String × Int)) :
    (parseTaskInput chronoRes "Call mom this weekend #family urgent").tags = ["family"] ∧
    (parseTaskInput chronoRes "Call mom this weekend #family urgent").priority = Priority.high ∧
    (parseTaskInput chronoRes "Call mom this weekend #family urgent").category = "work" := by
  refine ⟨?_, ?_, ?_⟩
  · rw [parseTaskInput_tags]; decide
  · rw [parseTaskInput_priority]; decide
  · rw [parseTaskInput_category]; decide

/-- C4 (counterexample): for an input in which the extraction finds no date
phrase the parser's dueDate is absent, but the task built by createTask has
a present dueDate equal to the current instant, so the created task is never
without a deadline. -/
theorem c4_created_task_gets_default_due_date :
    (parseTaskInput none "Buy socks").dueDate = none ∧
    (createTask none 1718000000000 "Buy socks" none).dueDate = some 1718000000000 ∧
    (createTask none 1718000000000 "Buy socks" none).dueDate ≠ none := by
  decide

/-- C4 (amended): for every input without a recognized date phrase the
parser's dueDate is absent, and createTask then substitutes the current
instant; in general the created task's dueDate is the extracted date when
present and the current instant otherwise, never absent. -/
theorem c4_parser_absent_creation_defaults_to_now
    (now : Int) (input : String) (pr : Option Priority) :
    (parseTaskInput none input).dueDate = none ∧
    (createTask none now input pr).dueDate = some now ∧
    ∀ chronoRes : Option (String × Int),
      (createTask chronoRes now input pr).dueDate =
        some ((chronoRes.map Prod.snd).getD now) := by
  exact ⟨rfl, rfl, fun chronoRes => rfl⟩

/-- C5 (counterexample): the parser's output is not a function of the input
text together with a caller-supplied time, because no time is supplied: the
date library's reference defaults to the wall clock read when the parser
runs, and the same input parsed at two instants one day apart yields two
different due dates. -/
theorem c5_parser_reads_wall_clock :
    (parseAtClock 0 "finish tomorrow").dueDate = some 86400000 ∧
    (parseAtClock 86400000 "finish tomorrow").dueDate = some 172800000 ∧
    (parseAtClock 0 "finish tomorrow").dueDate ≠
      (parseAtClock 86400000 "finish tomorrow").dueDate := by
  decide

/-- C5 (amended): the parser is deterministic once the wall-clock instant is
fixed, and that instant is its only hidden input: category, priority, tags
and repeat depend on the input text alone, and dueDate is determined by the
input text and the clock reading through the date extraction. -/
theorem c5_clock_is_the_only_hidden_input (input : String) (r1 r2 : Int) :
    (parseAtClock r1 input).category = (parseAtClock r2 input).category ∧
    (parseAtClock r1 input).priority = (parseAtClock r2 input).priority ∧
    (parseAtClock r1 input).tags = (parseAtClock r2 input).tags ∧
    (parseAtClock r1 input).repeatOpt = (parseAtClock r2 input).repeatOpt ∧
    (parseAtClock r1 input).dueDate = (chronoModel input r1).map Prod.snd := by
  exact ⟨rfl, rfl, rfl, rfl, rfl⟩

/-- C6: with a selected category (a non-empty string, the truthy case of the
source), the filtered view is exactly the tasks of that category, whatever
the view mode and search term are. -/
theorem c6_selected_category_suppresses_view_and_search
    (now : Int) (tasks : List Task) (viewMode searchTerm c : String) (h : c ≠ "") :
    getFilteredTasks now
        { tasks := tasks, viewMode := viewMode, searchTerm := searchTerm,
          selectedCategory := some c } =
      tasks.filter (fun t => decide (t.category = c)) := by
  simp [getFilteredTasks, h]

/-- C6 witness: a concrete state with a selected category, a view mode and a
search term that would otherwise exclude everything. -/
theorem c6_selected_category_witness :
    ("finance" : String) ≠ "" ∧
    getFilteredTasks 0
        { tasks := [financeTask, openTask], viewMode := "today", searchTerm := "zzz",
          selectedCategory := some "finance" } =
      [financeTask, openTask].filter (fun t => decide (t.category = "finance")) :=
  ⟨by decide,
    c6_selected_category_suppresses_view_and_search 0 [financeTask, openTask]
      "today" "zzz" "finance" (by decide)⟩

/-- C7: the default sort of the filtered view orders by the spec's order:
priority descending, then soonest due date first, then tasks without a due
date last, then newest creation first. The comparator order coincides with
that order, and the sort's output is a permutation of the filtered input
sorted by it. -/
theorem c7_default_sort_order :
    (∀ a b : Task, taskLe a b = true ↔ specLe a b) ∧
    (∀ (now : Int) (tasks : List Task) (viewMode searchTerm : String),
        filterTasks now tasks viewMode searchTerm =
          (filterTasksPre now tasks viewMode searchTerm).mergeSort taskLe ∧
        (filterTasks now tasks viewMode searchTerm).Perm
          (filterTasksPre now tasks viewMode searchTerm) ∧
        List.Sorted specLe (filterTasks now tasks viewMode searchTerm)) := by
  refine ⟨taskLe_iff_specLe,
    fun now tasks viewMode searchTerm => ⟨rfl, List.mergeSort_perm _ _, ?_⟩⟩
  exact (List.sorted_mergeSort taskLe_trans taskLe_total _).imp
    (fun h => (taskLe_iff_specLe _ _).mp h)

/-- C8: with no category selected and an empty search term, the today view
holds exactly the tasks due on the current calendar day or due strictly
before the current instant; in particular a not-completed task due three
days in the past is included. -/
theorem c8_today_view_includes_overdue :
    (∀ (now : Int) (tasks : List Task) (t : Task),
        t ∈ getFilteredTasks now
            { tasks := tasks, viewMode := "today", searchTerm := "",
              selectedCategory := none } ↔
          t ∈ tasks ∧ ∃ d, t.dueDate = some d ∧ (dayOf d = dayOf now ∨ d < now)) ∧
    (∀ now : Int,
        (overdueThreeDays now).completed = false ∧
        overdueThreeDays now ∈ getFilteredTasks now
          { tasks := [overdueThreeDays now], viewMode := "today", searchTerm := "",
            selectedCategory := none }) := by
  have hmem : ∀ (now : Int) (tasks : List Task) (t : Task),
      t ∈ getFilteredTasks now
          { tasks := tasks, viewMode := "today", searchTerm := "",
            selectedCategory := none } ↔
        t ∈ tasks ∧ ∃ d, t.dueDate = some d ∧ (dayOf d = dayOf now ∨ d < now) :=
    fun now tasks t => mem_filterTasks_today now tasks t
  refine ⟨hmem, fun now => ⟨rfl, ?_⟩⟩
  rw [hmem]
  refine ⟨List.mem_singleton.mpr rfl, now - 3 * msPerDay, rfl, Or.inr ?_⟩
  show now - 3 * 86400000 < now
  omega

/-- C9: TOGGLE_IMPORTANT rewrites only the target task's priority through the
toggle map, which is a two-cycle on high and medium, sends low to high, and
never produces low. -/
theorem c9_toggle_important_two_cycle :
    togglePriority Priority.medium = Priority.high ∧
    togglePriority (togglePriority Priority.medium) = Priority.medium ∧
    togglePriority Priority.high = Priority.medium ∧
    togglePriority (togglePriority Priority.high) = Priority.high ∧
    togglePriority Priority.low = Priority.high ∧
    (∀ p, togglePriority p ≠ Priority.low) ∧
    (∀ (now : Int) (id : String) (tasks : List Task),
        reduceTasks now (TaskAction.toggleImportant id) tasks =
          tasks.map (fun t =>
            if t.id = id then { t with priority := togglePriority t.priority, updatedAt := now }
            else t)) := by
  exact ⟨rfl, rfl, rfl, rfl, rfl, fun p => by cases p <;> decide, fun now id tasks => rfl⟩

/-- C10: every per-task reducer operation leaves each task with a different
id unchanged at its position (so fields and relative order are preserved),
and DELETE_TASK keeps exactly the differing-id tasks in order, leaving the
whole list unchanged when the id is absent. -/
theorem c10_per_task_operations_frame :
    (∀ (now : Int) (id : String) (st : Status) (l : List Task),
        frameOK id l (reduceTasks now (TaskAction.updateTaskStatus id st) l)) ∧
    (∀ (now : Int) (payload : Task) (l : List Task),
        frameOK payload.id l (reduceTasks now (TaskAction.updateTask payload) l)) ∧
    (∀ (now : Int) (id : String) (l : List Task),
        frameOK id l (reduceTasks now (TaskAction.toggleTask id) l)) ∧
    (∀ (now : Int) (id : String) (l : List Task),
        frameOK id l (reduceTasks now (TaskAction.toggleImportant id) l)) ∧
    (∀ (now : Int) (id : String) (l : List Task),
        reduceTasks now (TaskAction.deleteTask id) l =
          l.filter (fun t => decide (t.id ≠ id)) ∧
        ((∀ t ∈ l, t.id ≠ id) → reduceTasks now (TaskAction.deleteTask id) l = l)) := by
  refine ⟨fun now id st l => frame_map _ id l,
    fun now payload l => frame_map _ payload.id l,
    fun now id l => frame_map _ id l,
    fun now id l => frame_map _ id l,
    fun now id l => ⟨rfl, fun h => ?_⟩⟩
  exact List.filter_eq_self.mpr (fun a ha => by simpa using h a ha)

end Todo
